/-
Shallow embedding, in Lean 4, of the core of the qemu storage subsystem found
in this repository:

* `buffered_file.c` — the rate-limited buffered transport
  (`buffered_put_buffer`, `buffered_flush`, `buffered_set_rate_limit`, the
  worker loop of `buffered_file_thread`, `qemu_fopen_ops_buffered`);
* `aio-win32.c` — the event dispatcher
  (`qemu_aio_set_event_notifier`, `qemu_aio_wait`);
* `block/mirror.c` — the mirror block job (`mirror_run`, `mirror_start`).

Pure C functions become Lean functions on `Nat`/`Int`; the stateful pieces
become explicit state passing.  `size_t` is modelled as a 32-bit unsigned
integer (the width on which the source's `new_rate > SIZE_MAX` clamp in
`buffered_set_rate_limit` is an effective comparison; on an LP64 build the
usual arithmetic conversions turn it into a `uint64_t` comparison that can
never fire).  Collaborators that are declared and called here but whose
definitions are not part of this repository snapshot (the dirty bitmap of
`block.c`, `qemu_bh_poll`, `block_job_create`) are modelled from the spec;
each such definition says so in its doc comment.

Theorems named `cN_*` settle the corresponding claims about this code;
`*_witness` theorems instantiate the conditional ones on concrete inputs.
-/
import Mathlib

set_option autoImplicit false

namespace Buffered

/-- `SIZE_MAX` for the 32-bit `size_t` model. -/
def SIZE_MAX : Nat := 2 ^ 32 - 1

/-- `size_t` subtraction `a - b` (wraps modulo `2^32` when `b > a`), as used by
`buffered_flush` and `buffered_file_thread` on `buffer_size - buffer_offset`. -/
def sizeSub (a b : Nat) : Nat := if b ≤ a then a - b else a + 2 ^ 32 - b

/-- State of a `QEMUFileBuffered` (buffered_file.c).  The byte buffer is kept
as a list whose length is `buffer_capacity`; bytes beyond `buffer_size` are
garbage, as in the C original.  `fileError` is the sticky error stored in the
underlying `QEMUFile` by `qemu_file_set_error` (0 = no error). -/
structure St where
  closed : Bool
  xfer_limit : Nat
  buffer : List Nat
  buffer_size : Nat
  buffer_offset : Nat
  buffer_capacity : Nat
  fileError : Int
deriving Repr, DecidableEq

/-- Well-formedness of a transport state: the invariant claimed by the spec
plus the representation constraint tying the model's list to the capacity. -/
def WF (s : St) : Prop :=
  s.buffer_offset ≤ s.buffer_size ∧ s.buffer_size ≤ s.buffer_capacity ∧
    s.buffer.length = s.buffer_capacity

instance (s : St) : Decidable (WF s) := by unfold WF; infer_instance

/-- `buffered_put_buffer(s, buf, pos, size)` with `size = buf.length`.
Returns the updated state and the C `int` return value. -/
def buffered_put_buffer (s : St) (buf : List Nat) : St × Int :=
  let size := buf.length
  if size = 0 then (s, 0)
  else
    let s1 :=
      if size > sizeSub s.buffer_capacity s.buffer_size then
        { s with buffer_capacity := s.buffer_capacity + size + 1024,
                 buffer := s.buffer ++ List.replicate (size + 1024) 0 }
      else s
    let s2 :=
      { s1 with buffer := s1.buffer.take s1.buffer_size ++ buf ++
                            s1.buffer.drop (s1.buffer_size + size),
                buffer_size := s1.buffer_size + size }
    (s2, Int.ofNat size)

/-- The `do { ret = put_buffer(...); ... } while (ret > 0)` loop inside
`buffered_flush`.  `resp` is the sink's successive return values (one per
`put_buffer` call; an exhausted list behaves like a sink returning 0).
Returns `(new buffer_offset, last ret, total)`.  Note that, as in the source,
the requested length `len` is passed unchanged to every call and a 0 return is
turned into `-EPIPE` (= -32) before the loop test. -/
def flushLoop (off : Nat) (resp : List Int) : Nat × Int × Nat :=
  match resp with
  | [] => (off, -32, 0)
  | r :: rest =>
    let r' : Int := if r = 0 then -32 else r
    if 0 < r' then
      let (off', lastRet, total) := flushLoop (off + r'.toNat) rest
      (off', lastRet, total + r'.toNat)
    else (off, r', 0)

/-- `buffered_flush(s)`: drain the buffer towards the sink.  Returns the
updated state and the accumulated `total` (the C function's `size_t` return;
the early error return is modelled by returning the negative error). -/
def buffered_flush (s : St) (resp : List Int) : St × Int :=
  if s.fileError ≠ 0 then (s, s.fileError)
  else
    let len := min s.xfer_limit (sizeSub s.buffer_size s.buffer_offset)
    if len = 0 then (s, 0)
    else
      let (off', lastRet, total) := flushLoop s.buffer_offset resp
      let s1 := { s with buffer_offset := off' }
      let s2 := if lastRet < 0 then { s1 with fileError := lastRet } else s1
      let s3 :=
        if s2.buffer_offset = s2.buffer_size then
          { s2 with buffer_offset := 0, buffer_size := 0 }
        else s2
      (s3, Int.ofNat total)

/-- `buffered_set_rate_limit(s, new_rate)`: returns updated state and the
`int64_t` return value. -/
def buffered_set_rate_limit (s : St) (new_rate : Int) : St × Int :=
  if s.fileError ≠ 0 then (s, Int.ofNat s.xfer_limit)
  else
    let nr := if new_rate > (SIZE_MAX : Int) then (SIZE_MAX : Int) else new_rate
    let limit := ((nr.tdiv 10).emod (2 ^ 32)).toNat
    ({ s with xfer_limit := limit }, Int.ofNat limit)

/-- Result of one iteration of the `while` loop of `buffered_file_thread`
(plus the loop-condition check that precedes it).  `exited = true` means the
loop condition failed or the inner `break` ran, i.e. the thread falls through
to `s->close(s->opaque)` — the close callback fires. -/
structure IterRes where
  st : St
  bytes_xfer : Nat
  expire_time : Int
  sleptBranch : Bool
  flushRet : Int
  putReadyCalled : Bool
  exited : Bool
deriving Repr, DecidableEq

/-- One pass of `buffered_file_thread`'s loop.  `now` is
`qemu_get_clock_ms(rt_clock)` for this iteration, `resp` the sink returns
consumed by the embedded `buffered_flush`.  The producer work done by
`put_ready` and the stream flush of `qemu_fflush` are external to this state
and only recorded as `putReadyCalled`. -/
def worker_iter (s : St) (bytes_xfer : Nat) (expire_time : Int) (now : Int)
    (resp : List Int) : IterRes :=
  if s.closed || s.fileError ≠ 0 then
    ⟨s, bytes_xfer, expire_time, false, 0, false, true⟩
  else
    let slept := decide (s.xfer_limit ≤ bytes_xfer)
    let expire1 := if slept then -1 else expire_time
    let bx1 := if expire1 ≤ now then 0 else bytes_xfer
    let expire2 := if expire1 ≤ now then now + 100 else expire1
    let fr := buffered_flush s resp
    let s1 := fr.1
    let ret := fr.2
    let bx2 := if 0 ≤ ret then bx1 + ret.toNat else bx1
    if sizeSub s1.buffer_size s1.buffer_offset < s1.xfer_limit then
      if s1.buffer_size = 0 then ⟨s1, bx2, expire2, slept, ret, true, true⟩
      else ⟨s1, bx2, expire2, slept, ret, true, false⟩
    else ⟨s1, bx2, expire2, slept, ret, false, false⟩

/-- `qemu_fopen_ops_buffered(opaque, bytes_per_sec, ...)`: the freshly
allocated (`g_malloc0`) transport state. -/
def qemu_fopen_ops_buffered (bytes_per_sec : Nat) : St :=
  { closed := false, xfer_limit := bytes_per_sec / 10, buffer := [],
    buffer_size := 0, buffer_offset := 0, buffer_capacity := 0, fileError := 0 }

end Buffered

namespace Aio

/-- One `AioHandler` node of `aio-win32.c`.  `nid` is the model's stand-in
for the node's address (fresh per allocation, never reused); `e` is the
`EventNotifier` identity; `io_notify`/`io_flush` hold opaque callback
identities (`none` = `NULL`); `deleted` is the tombstone flag. -/
structure Node where
  nid : Nat
  e : Nat
  io_notify : Option Nat
  io_flush : Option Nat
  deleted : Bool
deriving Repr, DecidableEq

/-- The dispatcher's global state: the `aio_handlers` list (head first, as in
`QLIST`), the allocation counter for fresh `nid`s, and the
`walking_handlers` guard. -/
structure St where
  handlers : List Node
  nextId : Nat
  walking : Bool
deriving Repr, DecidableEq

/-- One call to `qemu_aio_set_event_notifier`, as data:
`notify = none` is the deletion convention. -/
structure RegCall where
  e : Nat
  notify : Option Nat
  flush : Option Nat
deriving Repr, DecidableEq

/-- The `QLIST_FOREACH` search: first node for `e` that is not deleted. -/
def findLive (hs : List Node) (e : Nat) : Option Node :=
  hs.find? fun n => n.e == e && !n.deleted

/-- Tombstone the first live node for `e` (`node->deleted = 1`). -/
def markFirstLive (e : Nat) : List Node → List Node
  | [] => []
  | n :: rest =>
    if n.e = e ∧ n.deleted = false then { n with deleted := true } :: rest
    else n :: markFirstLive e rest

/-- Physically remove the first live node for `e` (`QLIST_REMOVE; g_free`). -/
def removeFirstLive (e : Nat) : List Node → List Node
  | [] => []
  | n :: rest =>
    if n.e = e ∧ n.deleted = false then rest
    else n :: removeFirstLive e rest

/-- Replace the callbacks of the first live node for `e`
(`node->io_notify = ...; node->io_flush = ...`). -/
def updateFirstLive (e : Nat) (f : Nat) (fl : Option Nat) : List Node → List Node
  | [] => []
  | n :: rest =>
    if n.e = e ∧ n.deleted = false then
      { n with io_notify := some f, io_flush := fl } :: rest
    else n :: updateFirstLive e f fl rest

/-- `qemu_aio_set_event_notifier(e, io_notify, io_flush)`.  The
`qemu_add_wait_object`/`qemu_del_wait_object` calls mutate only the external
wait-object table and are not part of this state. -/
def set_event_notifier (st : St) (c : RegCall) : St :=
  match c.notify with
  | none =>
    match findLive st.handlers c.e with
    | none => st
    | some _ =>
      if st.walking then { st with handlers := markFirstLive c.e st.handlers }
      else { st with handlers := removeFirstLive c.e st.handlers }
  | some f =>
    match findLive st.handlers c.e with
    | some _ => { st with handlers := updateFirstLive c.e f c.flush st.handlers }
    | none =>
      { st with handlers := ⟨st.nextId, c.e, some f, c.flush, false⟩ :: st.handlers,
                nextId := st.nextId + 1 }

/-- Behaviour of the world around one `qemu_aio_wait` call: whether
`qemu_bh_poll` ran some bottom half, what each `io_flush` callback returns,
which `qemu_aio_set_event_notifier` calls each `io_notify` callback performs
when invoked, and the successive results of `WaitForMultipleObjects`
(indices into the events array; an exhausted list is a timeout). -/
structure Env where
  bhWork : Bool
  flushRet : Nat → Nat
  acts : Nat → List RegCall
  fired : List Nat

/-- Run the register calls that a callback performs, in order. -/
def applyCalls (st : St) (cs : List RegCall) : St :=
  cs.foldl set_event_notifier st

def findById (hs : List Node) (i : Nat) : Option Node :=
  hs.find? fun n => n.nid == i

def removeById (hs : List Node) (i : Nat) : List Node :=
  hs.filter fun n => n.nid ≠ i

/-- The guarded dispatch walk of `qemu_aio_wait` (the `while (node)` loop):
visit the snapshot of nodes (by id, in list order), invoke `io_notify` of
live matching nodes (whose register calls mutate the state), then sweep the
just-visited node if it is now tombstoned.  Returns the state and the list of
`nid`s whose `io_notify` was invoked. -/
def dispatchWalk (env : Env) (fired : Nat) : List Nat → St → St × List Nat
  | [], st => (st, [])
  | i :: rest, st =>
    match findById st.handlers i with
    | none => dispatchWalk env fired rest st
    | some n =>
      if n.deleted = false ∧ n.e = fired ∧ n.io_notify.isSome then
        let st1 := applyCalls st (env.acts (n.io_notify.getD 0))
        let st2 :=
          match findById st1.handlers i with
          | some n1 =>
            if n1.deleted then { st1 with handlers := removeById st1.handlers i }
            else st1
          | none => st1
        let r := dispatchWalk env fired rest st2
        (r.1, i :: r.2)
      else
        let st2 :=
          if n.deleted then { st with handlers := removeById st.handlers i }
          else st
        dispatchWalk env fired rest st2

/-- The fill loop of `qemu_aio_wait`: compute `busy` and the `events` array.
A node whose `io_flush` returns 0 is skipped (`continue`) — note that, as in
the source, the `io_flush` call itself is not guarded by `!node->deleted`. -/
def fill (env : Env) : List Node → Bool × List Nat
  | [] => (false, [])
  | n :: rest =>
    let r := fill env rest
    match n.io_flush with
    | some f =>
      if env.flushRet f = 0 then r
      else (true, if n.deleted = false ∧ n.io_notify.isSome then n.e :: r.2 else r.2)
    | none =>
      (r.1, if n.deleted = false ∧ n.io_notify.isSome then n.e :: r.2 else r.2)

/-- The `for (;;)` wait-and-dispatch rounds: each fired index selects a handle
from the (fixed) events array; an out-of-range result breaks the loop. -/
def waitRounds (env : Env) (events : List Nat) : List Nat → St → St × List Nat
  | [], st => (st, [])
  | r :: rs, st =>
    if h : r < events.length then
      let st1 := { st with walking := true }
      let w := dispatchWalk env (events.get ⟨r, h⟩) (st1.handlers.map Node.nid) st1
      let st2 := { w.1 with walking := false }
      let rest := waitRounds env events rs st2
      (rest.1, w.2 ++ rest.2)
    else (st, [])

/-- Result of one `qemu_aio_wait` call: final state, the `bool` return value,
whether `WaitForMultipleObjects` was reached at all, and the invocation
trace (node ids whose `io_notify` ran). -/
structure WaitRes where
  st : St
  ret : Bool
  waited : Bool
  invoked : List Nat
deriving Repr, DecidableEq

/-- `qemu_aio_wait()`. -/
def qemu_aio_wait (env : Env) (st : St) : WaitRes :=
  if env.bhWork then ⟨st, true, false, []⟩
  else
    let st1 := { st with walking := true }
    let f := fill env st1.handlers
    let st2 := { st1 with walking := false }
    if f.1 = false then ⟨st2, false, false, []⟩
    else
      let w := waitRounds env f.2 env.fired st2
      ⟨w.1, true, true, w.2⟩

/-- A sequence of dispatch passes; concatenates the invocation traces. -/
def runPasses : List Env → St → St × List Nat
  | [], st => (st, [])
  | env :: rest, st =>
    let r := qemu_aio_wait env st
    let r' := runPasses rest r.st
    (r'.1, r.invoked ++ r'.2)

/-- Id discipline: every node id is below the allocation counter, and ids are
pairwise distinct.  Holds of every state built through this interface. -/
def WFIds (st : St) : Prop :=
  (∀ n ∈ st.handlers, n.nid < st.nextId) ∧ (st.handlers.map Node.nid).Nodup

/-- Node id `i` is tombstoned-or-gone: every node carrying it is deleted. -/
def DeadOrGone (st : St) (i : Nat) : Prop :=
  ∀ n ∈ st.handlers, n.nid = i → n.deleted = true

instance (st : St) : Decidable (WFIds st) := by unfold WFIds; infer_instance

instance (st : St) (i : Nat) : Decidable (DeadOrGone st i) := by
  unfold DeadOrGone; infer_instance

end Aio

namespace Mirror

/-- `BDRV_SECTORS_PER_DIRTY_CHUNK` (from `block_int.h`, which is not part of
this snapshot; this is qemu's value, a power of two as the source's bit
tricks require). -/
def SECTORS_PER_CHUNK : Nat := 2048

/-- `BDRV_SECTOR_SIZE` (= `1 << BDRV_SECTOR_BITS`, `BDRV_SECTOR_BITS` = 9). -/
def SECTOR_SIZE : Nat := 512

/-- `BLOCK_SIZE = 512 * BDRV_SECTORS_PER_DIRTY_CHUNK` (mirror.c). -/
def BLOCK_SIZE : Nat := 512 * SECTORS_PER_CHUNK

/-- `SLICE_TIME` in ns (mirror.c). -/
def SLICE_TIME : Nat := 100000000

/-- Chunk index containing a sector. -/
def chunkOf (sector : Nat) : Nat := sector / SECTORS_PER_CHUNK

/-- `(sector_num | (BDRV_SECTORS_PER_DIRTY_CHUNK - 1)) + 1`: the next chunk
boundary strictly above `sector`.  For the power-of-two chunk size the OR
with the low-bit mask followed by `+ 1` is exactly rounding down to the chunk
start and adding one chunk, which is how it is written here. -/
def nextChunkBoundary (sector : Nat) : Nat :=
  (sector / SECTORS_PER_CHUNK) * SECTORS_PER_CHUNK + SECTORS_PER_CHUNK

/-- Modelled from the spec: the dirty-region tracker of `block.c` (not in this
snapshot) is "a bitmap over fixed-size chunks"; we keep the set of dirty
chunk indices as a duplicate-free list.  Marking is idempotent. -/
def insertChunk (d : List Nat) (k : Nat) : List Nat :=
  if k ∈ d then d else d ++ [k]

/-- Modelled from the spec: `bdrv_set_dirty(bs, sector, n)` marks every chunk
overlapping the sector range `[sector, sector + n)` (`n ≥ 1`). -/
def bdrv_set_dirty (d : List Nat) (sector n : Nat) : List Nat :=
  (List.range' (chunkOf sector) (chunkOf (sector + n - 1) + 1 - chunkOf sector)).foldl
    insertChunk d

/-- Modelled from the spec: `bdrv_reset_dirty(bs, sector, n)` clears every
chunk overlapping `[sector, sector + n)`. -/
def bdrv_reset_dirty (d : List Nat) (sector n : Nat) : List Nat :=
  d.filter fun k => ¬(chunkOf sector ≤ k ∧ k ≤ chunkOf (sector + n - 1))

/-- Modelled from the spec: `bdrv_get_dirty_count` — the number of dirty
chunks. -/
def bdrv_get_dirty_count (d : List Nat) : Nat := d.length

/-- Modelled from the spec: `bdrv_get_next_dirty(bs, cursor)` answers the
"lowest next dirty region at or after" the cursor, wrapping round-robin to
the lowest dirty chunk when none lies at or after it.  Returns the chunk's
first sector; the cursor is an `int64_t` (the job starts it at -1). -/
def bdrv_get_next_dirty (d : List Nat) (cursor : Int) : Nat :=
  let after := d.filter fun k => decide (cursor ≤ Int.ofNat (k * SECTORS_PER_CHUNK))
  (match after.min? with
   | some k => k
   | none => (d.min?).getD 0) * SECTORS_PER_CHUNK

/-- Everything `mirror_run` consumes from its collaborators:
the cancel flag at coroutine entry, `bdrv_getlength`, the
`bdrv_co_is_allocated_above` oracle (a function of the queried offset and
span, returning the C `ret` and `*n`), the per-copy result of
`mirror_populate`, the first loop iteration at which `block_job_cancel` has
been observed (`cancelAt`), the job speed with the per-iteration answer of
`ratelimit_calculate_delay`, and the chunks the guest dirties during
iteration `i`'s yield points (applied when the iteration ends). -/
structure Env where
  cancelled0 : Bool
  lenRet : Int
  scan : Nat → Nat → Int × Nat
  populate : Nat → Int
  cancelAt : Nat
  speed : Nat
  rlDelay : Nat → Nat
  dirtyAt : Nat → List Nat

/-- The sticky `block_job_is_cancelled` flag as seen during loop iteration
`i`. -/
def cancelFlag (env : Env) (i : Nat) : Bool :=
  env.cancelled0 || decide (env.cancelAt ≤ i)

/-- Result of the first-part scan loop of `mirror_run`: the value of `ret`
after the loop, the dirty bitmap, and the trace of `(offset, span)` queries
issued to the allocated-above-base collaborator, in order. -/
structure ScanRes where
  ret : Int
  dirty : List Nat
  queries : List (Nat × Nat)
deriving Repr, DecidableEq

/-- The initial-scan loop (`for (sector_num = 0; sector_num < end; )` in
`mirror_run`).  `fuel` bounds the number of iterations (`none` = not enough
fuel); a run that completes is independent of any surplus fuel. -/
def scanLoop (env : Env) (endS : Nat) : Nat → Nat → Int → List Nat →
    List (Nat × Nat) → Option ScanRes
  | 0, sector, ret, d, qs =>
    if sector < endS then none else some ⟨ret, d, qs⟩
  | fuel + 1, sector, ret, d, qs =>
    if sector < endS then
      let next := nextChunkBoundary sector
      let span := next - sector
      let a := env.scan sector span
      if a.1 < 0 then some ⟨a.1, d, qs ++ [(sector, span)]⟩
      else if a.1 = 1 then
        scanLoop env endS fuel next a.1 (bdrv_set_dirty d sector a.2)
          (qs ++ [(sector, span)])
      else
        scanLoop env endS fuel (sector + a.2) a.1 d (qs ++ [(sector, span)])
    else some ⟨ret, d, qs⟩

/-- Observable events of a `mirror_run` execution, in order. -/
inductive MEv where
  | complete (ret : Int)
  | trackingOff
  | closeTarget
  | deleteTarget
  | drainAll
  | sleep (ns : Nat)
  | copy (sector : Nat) (ret : Int)
deriving Repr, DecidableEq

/-- State of the steady-state `for (;;)` loop of `mirror_run`. -/
structure LoopSt where
  dirty : List Nat
  synced : Bool
  sectorNum : Int
  iter : Nat
  copies : Nat
deriving Repr, DecidableEq

/-- Outcome of one loop iteration: continue with a new state, or leave the
loop towards `immediate_exit` carrying `ret` and the final value of
`s->common.cancelled`. -/
inductive StepRes where
  | cont (st : LoopSt) (evs : List MEv)
  | exitLoop (ret : Int) (cancelledEnd : Bool) (evs : List MEv)
deriving Repr, DecidableEq

/-- External dirtying during iteration `i` (guest writes at the iteration's
yield points). -/
def applyGuest (env : Env) (i : Nat) (d : List Nat) : List Nat :=
  (env.dirtyAt i).foldl insertChunk d

/-- Tail of a loop iteration, after the optional chunk copy: the
drain-on-cancel, the re-read of the dirty count, and the
sleep/complete/cancel decision of lines 130-179 of mirror.c. -/
def loopTail (env : Env) (st : LoopSt) (flag synced : Bool) (d1 : List Nat)
    (sector' : Int) (copies' : Nat) (evs0 : List MEv) : StepRes :=
  let evs1 := if synced && flag then evs0 ++ [MEv.drainAll] else evs0
  let cnt := bdrv_get_dirty_count d1
  if synced then
    if flag then
      if cnt = 0 then .exitLoop 0 false evs1
      else .cont ⟨applyGuest env st.iter d1, synced, sector', st.iter + 1, copies'⟩ evs1
    else
      .cont ⟨applyGuest env st.iter d1, synced, sector', st.iter + 1, copies'⟩
        (evs1 ++ [MEv.sleep (if cnt = 0 then SLICE_TIME else 0)])
  else
    let evs2 := evs1 ++ [MEv.sleep (if env.speed ≠ 0 then env.rlDelay st.iter else 0)]
    if flag then .exitLoop 0 true evs2
    else .cont ⟨applyGuest env st.iter d1, synced, sector', st.iter + 1, copies'⟩ evs2

/-- One iteration of the steady-state loop. -/
def loopStep (env : Env) (st : LoopSt) : StepRes :=
  let flag := cancelFlag env st.iter
  let cnt0 := bdrv_get_dirty_count st.dirty
  let synced := decide (cnt0 = 0) || st.synced
  if cnt0 = 0 then
    loopTail env st flag synced st.dirty st.sectorNum st.copies []
  else
    let sector := bdrv_get_next_dirty st.dirty st.sectorNum
    let d1 := bdrv_reset_dirty st.dirty sector SECTORS_PER_CHUNK
    let r := env.populate st.copies
    if r < 0 then .exitLoop r flag [MEv.copy sector r]
    else loopTail env st flag synced d1 (Int.ofNat sector) (st.copies + 1)
      [MEv.copy sector r]

/-- Run the steady-state loop to its exit (up to `fuel` iterations),
returning `(ret, final cancelled flag, events)`. -/
def runLoop (env : Env) : Nat → LoopSt → Option (Int × Bool × List MEv)
  | 0, _ => none
  | fuel + 1, st =>
    match loopStep env st with
    | .exitLoop ret c evs => some (ret, c, evs)
    | .cont st' evs =>
      (runLoop env fuel st').map fun r => (r.1, r.2.1, evs ++ r.2.2)

/-- The `immediate_exit` epilogue: stop dirty tracking, close and delete the
target, deliver the completion signal. -/
def cleanupEvs (ret : Int) : List MEv :=
  [MEv.trackingOff, MEv.closeTarget, MEv.deleteTarget, MEv.complete ret]

/-- A whole `mirror_run` execution: the ordered trace of observable events and
the final value of `s->common.cancelled`. -/
structure RunRes where
  events : List MEv
  finalCancelled : Bool
deriving Repr, DecidableEq

/-- `mirror_run(s)`. -/
def mirror_run (env : Env) (fuel : Nat) : Option RunRes :=
  if env.cancelled0 then some ⟨cleanupEvs 0, true⟩
  else if env.lenRet < 0 then some ⟨[MEv.complete env.lenRet], env.cancelled0⟩
  else
    let endS := env.lenRet.toNat / SECTOR_SIZE
    match scanLoop env endS fuel 0 0 [] [] with
    | none => none
    | some sres =>
      let scanEvs := if sres.ret < 0 then [MEv.complete sres.ret] else []
      match runLoop env fuel ⟨sres.dirty, false, -1, 0, 0⟩ with
      | none => none
      | some r =>
        some ⟨scanEvs ++ r.2.2 ++ cleanupEvs r.1, r.2.1⟩

/-- Number of completion signals in a trace. -/
def countCompletes (evs : List MEv) : Nat :=
  (evs.filter fun ev => match ev with | MEv.complete _ => true | _ => false).length

/-- Error identities used by `mirror_start`. -/
inductive QErr where
  | invalidParameter
  | openFileFailed
deriving Repr, DecidableEq

/-- What `mirror_start` did before returning.  `completions` counts
completion-callback deliveries performed by `mirror_start` itself;
on the success path the created coroutine (modelled by `mirror_run`) is
entered and delivers the signal later. -/
structure StartRes where
  jobCreated : Bool
  targetAllocated : Bool
  targetDeleted : Bool
  errSet : Option QErr
  dirtyTracking : Bool
  coroutineStarted : Bool
  completions : Nat
deriving Repr, DecidableEq

/-- `mirror_start(bs, target, drv, flags, speed, full, cb, opaque, errp)`.
`block_job_create` is not part of this snapshot; modelled from the spec:
"validates inputs (negative speed is rejected as a configuration error)",
returning NULL with the error set.  `openRet` is the result of `bdrv_open`
on the target. -/
def mirror_start (speed : Int) (openRet : Int) : StartRes :=
  if speed < 0 then ⟨false, false, false, some .invalidParameter, false, false, 0⟩
  else if openRet < 0 then ⟨true, true, true, some .openFileFailed, false, false, 0⟩
  else ⟨true, true, false, none, true, true, 0⟩

end Mirror

namespace Mirror

/-- Contract of the allocated-above-base collaborator assumed by the claims:
on a positive requested span it answers allocated (1) or not allocated (0)
with a positive span no larger than the requested one. -/
def ScanWF (env : Env) : Prop :=
  ∀ s sp, 0 < sp →
    0 < (env.scan s sp).2 ∧ (env.scan s sp).2 ≤ sp ∧
      ((env.scan s sp).1 = 0 ∨ (env.scan s sp).1 = 1)

/-- The cursor-advance law of the scan loop: the next query starts at the
chunk boundary after an allocated answer, and `span` further on after a
not-allocated answer. -/
def scanAdvance (env : Env) (a b : Nat × Nat) : Prop :=
  b.1 = if (env.scan a.1 a.2).1 = 1 then nextChunkBoundary a.1 else a.1 + (env.scan a.1 a.2).2

end Mirror

/-! Concrete instances used by the counterexample and witness theorems. -/

/-- A transport about to drain 1 buffered byte under `xfer_limit = 1`. -/
def flushOverrunSt : Buffered.St :=
  { closed := false, xfer_limit := 1, buffer := [7, 7], buffer_size := 1,
    buffer_offset := 0, buffer_capacity := 2, fileError := 0 }

/-- A transport opened with `bytes_per_sec = 0` into which the producer has
written one byte. -/
def zeroRateSt : Buffered.St :=
  (Buffered.buffered_put_buffer (Buffered.qemu_fopen_ops_buffered 0) [7]).1

/-- A generic healthy transport state. -/
def bufWitnessSt : Buffered.St :=
  { closed := false, xfer_limit := 5, buffer := [1, 2, 3], buffer_size := 2,
    buffer_offset := 1, buffer_capacity := 3, fileError := 0 }

/-- One registered source: notifier 5, readiness callback 7, pending
predicate 9. -/
def aioOneSt : Aio.St :=
  { handlers := [⟨0, 5, some 7, some 9, false⟩], nextId := 1, walking := false }

/-- A pass during which callback 7 unregisters its own source (notifier 5),
the pending predicate always reports work, and the wait fires event 0. -/
def aioSelfDeleteEnv : Aio.Env :=
  { bhWork := false, flushRet := fun _ => 1,
    acts := fun c => if c = 7 then [⟨5, none, none⟩] else [], fired := [0] }

/-- A pass with no queued bottom halves, no pending work anywhere, and no
fired events. -/
def aioIdleEnv : Aio.Env :=
  { bhWork := false, flushRet := fun _ => 0, acts := fun _ => [], fired := [] }

/-- A mirror environment whose length query succeeds (2 chunks) but whose
very first allocated-above-base query fails with -5, and where cancellation
is observed from loop iteration 0 on. -/
def mirrorScanErrEnv : Mirror.Env :=
  { cancelled0 := false, lenRet := 2097152,
    scan := fun _ _ => (-5, 0), populate := fun _ => 0, cancelAt := 0,
    speed := 0, rlDelay := fun _ => 0, dirtyAt := fun _ => [] }

/-- A mirror environment whose length query fails with -9. -/
def mirrorLenErrEnv : Mirror.Env :=
  { mirrorScanErrEnv with lenRet := -9 }

/-- A mirror environment: 2-chunk extent, nothing allocated above base, the
guest dirties chunk 0 during iteration 0's idle sleep, and cancellation is
observed from iteration 1 on. -/
def mirrorLateCancelEnv : Mirror.Env :=
  { cancelled0 := false, lenRet := 2097152,
    scan := fun _ _ => (0, 2048), populate := fun _ => 0, cancelAt := 1,
    speed := 0, rlDelay := fun _ => 0,
    dirtyAt := fun i => if i = 0 then [0] else [] }

/-- A scan collaborator that answers the query at offset 0 "not allocated,
skip 4 sectors" and every other query "allocated over the whole span"; its
spans are always positive and never exceed the requested maximum. -/
def mirrorPartialSkipEnv : Mirror.Env :=
  { cancelled0 := false, lenRet := 1048576,
    scan := fun s sp => if s = 0 then (0, min 4 sp) else (1, sp),
    populate := fun _ => 0,
    cancelAt := 1000, speed := 0, rlDelay := fun _ => 0, dirtyAt := fun _ => [] }

/-- A scan collaborator for which the first chunk is allocated and the second
is not, each answer covering the full requested span. -/
def mirrorScanWitnessEnv : Mirror.Env :=
  { cancelled0 := false, lenRet := 2097152,
    scan := fun s sp => if s < 2048 then (1, sp) else (0, sp), populate := fun _ => 0,
    cancelAt := 1000, speed := 0, rlDelay := fun _ => 0, dirtyAt := fun _ => [] }

/-- Number of scan queries issued inside chunk `k`. -/
def queriesInChunk (qs : List (Nat × Nat)) (k : Nat) : Nat :=
  (qs.filter fun q => Mirror.chunkOf q.1 = k).length

/-! ## Theorems -/

theorem sizeSub_of_le {a b : Nat} (h : b ≤ a) : Buffered.sizeSub a b = a - b := by
  simp [Buffered.sizeSub, h]

/-- C9: for every producer call `write(buf, size)` with `size > 0`,
`buffered_put_buffer` accepts all bytes and returns `size`, appending the
bytes at the current write offset and, when free capacity is insufficient,
growing the capacity by exactly `size + 1024` (so by at least `size` plus the
fixed slack); it never rejects or truncates a write, and the buffer invariant
is preserved. -/
theorem c9_put_buffer_accepts_all (s : Buffered.St) (buf : List Nat)
    (hwf : Buffered.WF s) (hne : buf ≠ []) :
    (Buffered.buffered_put_buffer s buf).2 = Int.ofNat buf.length ∧
    (Buffered.buffered_put_buffer s buf).1.buffer_size = s.buffer_size + buf.length ∧
    (Buffered.buffered_put_buffer s buf).1.buffer_offset = s.buffer_offset ∧
    (Buffered.buffered_put_buffer s buf).1.buffer.take (s.buffer_size + buf.length) =
      s.buffer.take s.buffer_size ++ buf ∧
    (s.buffer_capacity - s.buffer_size < buf.length →
      (Buffered.buffered_put_buffer s buf).1.buffer_capacity =
        s.buffer_capacity + buf.length + 1024) ∧
    (buf.length ≤ s.buffer_capacity - s.buffer_size →
      (Buffered.buffered_put_buffer s buf).1.buffer_capacity = s.buffer_capacity) ∧
    Buffered.WF (Buffered.buffered_put_buffer s buf).1 := by
  obtain ⟨hos, hsc, hlen⟩ := hwf
  have hL : buf.length ≠ 0 := by simpa using hne
  unfold Buffered.buffered_put_buffer
  simp only [hL, if_false, sizeSub_of_le hsc]
  by_cases hg : s.buffer_capacity - s.buffer_size < buf.length
  · simp only [if_pos (by omega : buf.length > s.buffer_capacity - s.buffer_size)]
    have htk : (s.buffer ++ List.replicate (buf.length + 1024) 0).take s.buffer_size =
        s.buffer.take s.buffer_size :=
      List.take_append_of_le_length (by omega)
    refine ⟨trivial, trivial, trivial, ?_, fun _ => trivial, by omega, ?_⟩
    · rw [htk, List.take_append_of_le_length (by simp [List.length_take]; omega),
        List.take_of_length_le (by simp [List.length_take])]
    · simp only [Buffered.WF]
      refine ⟨by omega, by omega, ?_⟩
      simp [htk, List.length_take, List.length_drop]
      omega
  · simp only [if_neg (by omega : ¬ buf.length > s.buffer_capacity - s.buffer_size)]
    refine ⟨trivial, trivial, trivial, ?_, by omega, fun _ => trivial, ?_⟩
    · rw [List.take_append_of_le_length (by simp [List.length_take]; omega),
        List.take_of_length_le (by simp [List.length_take])]
    · simp only [Buffered.WF]
      refine ⟨by omega, by omega, ?_⟩
      simp [List.length_take, List.length_drop]
      omega

/-- Witness for C9 on a concrete transport state and a 2-byte write. -/
theorem c9_put_buffer_accepts_all_witness :
    (Buffered.buffered_put_buffer bufWitnessSt [8, 9]).2 = Int.ofNat ([8, 9] : List Nat).length ∧
    (Buffered.buffered_put_buffer bufWitnessSt [8, 9]).1.buffer_size =
      bufWitnessSt.buffer_size + ([8, 9] : List Nat).length ∧
    (Buffered.buffered_put_buffer bufWitnessSt [8, 9]).1.buffer_offset =
      bufWitnessSt.buffer_offset ∧
    (Buffered.buffered_put_buffer bufWitnessSt [8, 9]).1.buffer.take
        (bufWitnessSt.buffer_size + ([8, 9] : List Nat).length) =
      bufWitnessSt.buffer.take bufWitnessSt.buffer_size ++ [8, 9] ∧
    (bufWitnessSt.buffer_capacity - bufWitnessSt.buffer_size < ([8, 9] : List Nat).length →
      (Buffered.buffered_put_buffer bufWitnessSt [8, 9]).1.buffer_capacity =
        bufWitnessSt.buffer_capacity + ([8, 9] : List Nat).length + 1024) ∧
    (([8, 9] : List Nat).length ≤ bufWitnessSt.buffer_capacity - bufWitnessSt.buffer_size →
      (Buffered.buffered_put_buffer bufWitnessSt [8, 9]).1.buffer_capacity =
        bufWitnessSt.buffer_capacity) ∧
    Buffered.WF (Buffered.buffered_put_buffer bufWitnessSt [8, 9]).1 :=
  c9_put_buffer_accepts_all bufWitnessSt [8, 9] (by decide) (by decide)

/-- C10: when the sticky file error is set, `buffered_set_rate_limit` leaves
the stored xfer limit unchanged and returns its current value; otherwise it
clamps a `new_rate` above `SIZE_MAX` down to `SIZE_MAX`, stores
`new_rate / 10` as the per-slice quota and returns the stored value
(stated for non-negative rates, the only ones producible through the
configuration surface). -/
theorem c10_set_rate_limit (s : Buffered.St) (new_rate : Int) :
    (s.fileError ≠ 0 →
      Buffered.buffered_set_rate_limit s new_rate = (s, Int.ofNat s.xfer_limit)) ∧
    (s.fileError = 0 → 0 ≤ new_rate →
      Buffered.buffered_set_rate_limit s new_rate =
        ({ s with xfer_limit := (min new_rate (Buffered.SIZE_MAX : Int)).toNat / 10 },
         Int.ofNat ((min new_rate (Buffered.SIZE_MAX : Int)).toNat / 10))) := by
  constructor
  · intro herr
    simp [Buffered.buffered_set_rate_limit, herr]
  · intro herr hnn
    simp only [Buffered.buffered_set_rate_limit, herr]
    rw [if_neg (fun h => h rfl)]
    suffices key : (((if new_rate > (Buffered.SIZE_MAX : Int) then (Buffered.SIZE_MAX : Int)
        else new_rate).tdiv 10).emod (2 ^ 32)).toNat =
        (min new_rate (Buffered.SIZE_MAX : Int)).toNat / 10 by
      rw [key]
    split
    · case _ h =>
      rw [min_eq_right (le_of_lt h)]
      norm_num [Buffered.SIZE_MAX, Int.tdiv]
      decide
    · case _ h =>
      have hle : new_rate ≤ (Buffered.SIZE_MAX : Int) := not_lt.mp h
      have htd : new_rate.tdiv 10 = new_rate / 10 := Int.tdiv_eq_ediv hnn (by norm_num)
      have h2 : (2 : Int) ^ 32 = 4294967296 := by norm_num
      have hem : ∀ a b : Int, a.emod b = a % b := fun _ _ => rfl
      rw [htd, min_eq_left hle, h2, hem]
      simp only [Buffered.SIZE_MAX] at hle
      omega

/-- Witness for C10: the error path leaves the stored limit as is; the
no-error path clamps `2^33` to `SIZE_MAX` and stores a tenth of it. -/
theorem c10_set_rate_limit_witness :
    Buffered.buffered_set_rate_limit { bufWitnessSt with fileError := -5 } 50 =
      ({ bufWitnessSt with fileError := -5 },
       Int.ofNat ({ bufWitnessSt with fileError := -5 }).xfer_limit) ∧
    Buffered.buffered_set_rate_limit bufWitnessSt (2 ^ 33) =
      ({ bufWitnessSt with
          xfer_limit := (min ((2 : Int) ^ 33) (Buffered.SIZE_MAX : Int)).toNat / 10 },
       Int.ofNat ((min ((2 : Int) ^ 33) (Buffered.SIZE_MAX : Int)).toNat / 10)) :=
  ⟨(c10_set_rate_limit { bufWitnessSt with fileError := -5 } 50).1 (by decide),
   (c10_set_rate_limit bufWitnessSt (2 ^ 33)).2 (by decide) (by decide)⟩

/-- C6 fails on the code: on a state with 1 buffered byte and
`xfer_limit = 1` and a sink that accepts the requested byte twice before
returning 0, one `buffered_flush` call transfers 2 bytes — more than
`min(xfer_limit, buffer_size - buffer_offset) = 1` — and leaves
`buffer_offset = 2 > buffer_size = 1`, breaking the invariant (the retry
loop re-requests the full `len` without decrementing it and without checking
the quota).  The well-formed input state is driven into an ill-formed one. -/
theorem c6_flush_exceeds_quota :
    Buffered.buffered_flush flushOverrunSt [1, 1, 0] =
      ({ flushOverrunSt with buffer_offset := 2, fileError := -32 }, 2) ∧
    min flushOverrunSt.xfer_limit
        (flushOverrunSt.buffer_size - flushOverrunSt.buffer_offset) = 1 ∧
    Buffered.WF flushOverrunSt ∧
    ¬ Buffered.WF (Buffered.buffered_flush flushOverrunSt [1, 1, 0]).1 := by
  decide

/-- C7 (amended): with `bytes_per_sec = 0` the per-slice quota is 0, and a
zero quota is a full stop, not "unlimited": every worker-loop iteration on an
open, error-free transport takes the rate-limit sleep branch, drains 0 bytes
(`min(0, buffered) = 0`), leaves the transport state unchanged, never calls
`put_ready`, and never exits towards the close callback. -/
theorem c7_zero_rate_no_transfer (s : Buffered.St) (bytes_xfer : Nat)
    (expire_time now : Int) (resp : List Int)
    (hlim : s.xfer_limit = 0) (hcl : s.closed = false) (herr : s.fileError = 0) :
    (Buffered.qemu_fopen_ops_buffered 0).xfer_limit = 0 ∧
    (Buffered.worker_iter s bytes_xfer expire_time now resp).sleptBranch = true ∧
    (Buffered.worker_iter s bytes_xfer expire_time now resp).flushRet = 0 ∧
    (Buffered.worker_iter s bytes_xfer expire_time now resp).st = s ∧
    (Buffered.worker_iter s bytes_xfer expire_time now resp).putReadyCalled = false ∧
    (Buffered.worker_iter s bytes_xfer expire_time now resp).exited = false := by
  have hflush : Buffered.buffered_flush s resp = (s, 0) := by
    simp [Buffered.buffered_flush, herr, hlim]
  refine ⟨rfl, ?_, ?_, ?_, ?_, ?_⟩ <;>
    simp [Buffered.worker_iter, hcl, herr, hflush, hlim]

/-- Witness for C7's amended statement on the concrete zero-rate transport. -/
theorem c7_zero_rate_no_transfer_witness :
    (Buffered.qemu_fopen_ops_buffered 0).xfer_limit = 0 ∧
    (Buffered.worker_iter zeroRateSt 0 (-1) 0 []).sleptBranch = true ∧
    (Buffered.worker_iter zeroRateSt 0 (-1) 0 []).flushRet = 0 ∧
    (Buffered.worker_iter zeroRateSt 0 (-1) 0 []).st = zeroRateSt ∧
    (Buffered.worker_iter zeroRateSt 0 (-1) 0 []).putReadyCalled = false ∧
    (Buffered.worker_iter zeroRateSt 0 (-1) 0 []).exited = false :=
  c7_zero_rate_no_transfer zeroRateSt 0 (-1) 0 [] (by decide) (by decide) (by decide)

/-- C7 fails as claimed: on the transport opened with `bytes_per_sec = 0`
holding W = 1 producer byte, a worker iteration takes the rate-limit sleep
branch and transfers nothing — the byte never reaches the sink and the close
callback never fires, instead of "all W bytes drain without any rate-limit
sleep". -/
theorem c7_zero_rate_counterexample :
    zeroRateSt.xfer_limit = 0 ∧
    zeroRateSt.buffer_size = 1 ∧
    (Buffered.worker_iter zeroRateSt 0 (-1) 0 []).sleptBranch = true ∧
    (Buffered.worker_iter zeroRateSt 0 (-1) 0 []).flushRet = 0 ∧
    (Buffered.worker_iter zeroRateSt 0 (-1) 0 []).st.buffer_size = 1 ∧
    (Buffered.worker_iter zeroRateSt 0 (-1) 0 []).exited = false ∧
    (Buffered.worker_iter zeroRateSt 0 (-1) 0 []).putReadyCalled = false := by
  decide

/-- C8 (amended): when `bdrv_open` of the target fails in `mirror_start`, the
partially-opened target is released (`bdrv_delete`) and the failure is
reported synchronously through the caller's error out-parameter — not through
the job's completion callback, which is never invoked here — with no job
coroutine scheduled and dirty tracking not enabled. -/
theorem c8_open_failure_sync_error (speed openRet : Int)
    (hs : 0 ≤ speed) (ho : openRet < 0) :
    Mirror.mirror_start speed openRet =
      ⟨true, true, true, some Mirror.QErr.openFileFailed, false, false, 0⟩ := by
  unfold Mirror.mirror_start
  rw [if_neg (by omega), if_pos ho]

/-- Witness for C8's amended statement at `speed = 0`, `openRet = -2`. -/
theorem c8_open_failure_sync_error_witness :
    Mirror.mirror_start 0 (-2) =
      ⟨true, true, true, some Mirror.QErr.openFileFailed, false, false, 0⟩ :=
  c8_open_failure_sync_error 0 (-2) (by decide) (by decide)

/-- C8 fails as claimed: on open failure `mirror_start` delivers no completion
signal at all (zero completion-callback invocations, no coroutine that could
ever deliver one); the failure goes to the error out-parameter instead.  The
target release and the not-enabled dirty tracking do hold. -/
theorem c8_open_failure_no_completion_signal :
    (Mirror.mirror_start 0 (-2)).completions = 0 ∧
    (Mirror.mirror_start 0 (-2)).coroutineStarted = false ∧
    (Mirror.mirror_start 0 (-2)).errSet = some Mirror.QErr.openFileFailed ∧
    (Mirror.mirror_start 0 (-2)).targetDeleted = true ∧
    (Mirror.mirror_start 0 (-2)).dirtyTracking = false := by
  decide

/-- C1 fails on the code: when the initial scan's allocated-above-base query
fails (-5) and cancellation is then observed, `mirror_run` delivers TWO
completion signals — the first, carrying the error, before any cleanup (the
`if (ret < 0)` block after the scan loop completes but does not leave the
function), and a second one, carrying success, after cleanup when the main
loop exits.  On a length-query failure (-9) exactly one signal is delivered
but with no cleanup at all before it. -/
theorem c1_completion_signal_paths :
    Mirror.mirror_run mirrorScanErrEnv 4 =
      some ⟨[Mirror.MEv.complete (-5), Mirror.MEv.drainAll, Mirror.MEv.trackingOff,
             Mirror.MEv.closeTarget, Mirror.MEv.deleteTarget, Mirror.MEv.complete 0],
            false⟩ ∧
    (Mirror.mirror_run mirrorScanErrEnv 4).map
        (fun r => Mirror.countCompletes r.events) = some 2 ∧
    Mirror.mirror_run mirrorLenErrEnv 1 =
      some ⟨[Mirror.MEv.complete (-9)], false⟩ := by
  decide

/-- C2 (amended): a cancellation observed with zero dirty chunks (the job is
then in the synced state) makes the loop exit at once with the cancelled flag
cleared and `ret = 0` — outcome completed; a cancellation observed before the
job has reached the synced state makes the loop exit after the iteration's
sleep with the cancelled flag still set — outcome cancelled.  (Cancellation
observed in the synced state with chunks still dirty terminates the loop only
once the chunks have been copied; see the counterexample.) -/
theorem c2_cancel_outcomes (env : Mirror.Env) (st : Mirror.LoopSt) (fuel : Nat) :
    (Mirror.cancelFlag env st.iter = true → st.dirty = [] →
      Mirror.runLoop env (fuel + 1) st = some (0, false, [Mirror.MEv.drainAll])) ∧
    (Mirror.cancelFlag env st.iter = true → st.synced = false → st.dirty ≠ [] →
      0 ≤ env.populate st.copies →
      Mirror.runLoop env (fuel + 1) st =
        some (0, true,
          [Mirror.MEv.copy (Mirror.bdrv_get_next_dirty st.dirty st.sectorNum)
             (env.populate st.copies),
           Mirror.MEv.sleep (if env.speed ≠ 0 then env.rlDelay st.iter else 0)])) := by
  constructor
  · intro hflag hd
    simp [Mirror.runLoop, Mirror.loopStep, Mirror.loopTail,
      Mirror.bdrv_get_dirty_count, hd, hflag]
  · intro hflag hsync hd hpop
    have hlen : Mirror.bdrv_get_dirty_count st.dirty ≠ 0 := by
      simpa [Mirror.bdrv_get_dirty_count, List.length_eq_zero] using hd
    simp [Mirror.runLoop, Mirror.loopStep, Mirror.loopTail, hflag, hsync, hlen,
      not_lt.mpr hpop]

/-- Witness for C2's amended statement: a cancel with nothing dirty completes
(flag cleared), a cancel before sync with chunk 3 dirty exits cancelled. -/
theorem c2_cancel_outcomes_witness :
    Mirror.runLoop mirrorScanErrEnv 1 ⟨[], false, -1, 0, 0⟩ =
      some (0, false, [Mirror.MEv.drainAll]) ∧
    Mirror.runLoop mirrorScanErrEnv 1 ⟨[3], false, -1, 0, 0⟩ =
      some (0, true,
        [Mirror.MEv.copy (Mirror.bdrv_get_next_dirty [3] (-1))
           (mirrorScanErrEnv.populate 0),
         Mirror.MEv.sleep (if mirrorScanErrEnv.speed ≠ 0 then mirrorScanErrEnv.rlDelay 0
           else 0)]) :=
  ⟨(c2_cancel_outcomes mirrorScanErrEnv ⟨[], false, -1, 0, 0⟩ 0).1 (by decide) rfl,
   (c2_cancel_outcomes mirrorScanErrEnv ⟨[3], false, -1, 0, 0⟩ 0).2 (by decide) rfl
     (by decide) (by decide)⟩

/-- C2 fails as stated: in `mirrorLateCancelEnv` the job reaches the synced
state (iteration 0), the guest re-dirties chunk 0 during the idle sleep, and
cancellation is observed from iteration 1 — i.e. while one chunk is dirty —
yet the job copies the chunk and terminates with the cancelled flag cleared
and `ret = 0`: outcome completed, not cancelled. -/
theorem c2_synced_cancel_with_dirty_completes :
    Mirror.loopStep mirrorLateCancelEnv ⟨[], false, -1, 0, 0⟩ =
      Mirror.StepRes.cont ⟨[0], true, -1, 1, 0⟩ [Mirror.MEv.sleep Mirror.SLICE_TIME] ∧
    Mirror.cancelFlag mirrorLateCancelEnv 1 = true ∧
    Mirror.bdrv_get_dirty_count [0] = 1 ∧
    Mirror.mirror_run mirrorLateCancelEnv 8 =
      some ⟨[Mirror.MEv.sleep Mirror.SLICE_TIME, Mirror.MEv.copy 0 0, Mirror.MEv.drainAll,
             Mirror.MEv.trackingOff, Mirror.MEv.closeTarget, Mirror.MEv.deleteTarget,
             Mirror.MEv.complete 0], false⟩ := by
  decide

theorem aio_fill_no_pending (env : Aio.Env) (hs : List Aio.Node)
    (h : ∀ n ∈ hs, ∀ f, n.io_flush = some f → env.flushRet f = 0) :
    (Aio.fill env hs).1 = false := by
  induction hs with
  | nil => rfl
  | cons n rest ih =>
    have ih' := ih fun m hm => h m (List.mem_cons_of_mem _ hm)
    cases hf : n.io_flush with
    | some f =>
      simp [Aio.fill, hf, h n (List.mem_cons_self _ _) f hf, ih']
    | none =>
      simp [Aio.fill, hf, ih']

/-- C4: one dispatch step first runs queued bottom-half work and, if any ran,
returns true without ever reaching the OS wait primitive; otherwise, when no
source's `io_flush` predicate reports pending work, it returns false (idle)
without blocking, leaving the registry untouched. -/
theorem c4_dispatch_step_idle (env : Aio.Env) (st : Aio.St) :
    (env.bhWork = true → Aio.qemu_aio_wait env st = ⟨st, true, false, []⟩) ∧
    (env.bhWork = false →
      (∀ n ∈ st.handlers, ∀ f, n.io_flush = some f → env.flushRet f = 0) →
      Aio.qemu_aio_wait env st = ⟨{ st with walking := false }, false, false, []⟩) := by
  constructor
  · intro hbh
    simp [Aio.qemu_aio_wait, hbh]
  · intro hbh hp
    have hfill : (Aio.fill env st.handlers).1 = false := aio_fill_no_pending env _ hp
    simp [Aio.qemu_aio_wait, hbh, hfill]

/-- Witness for C4: a pass with queued bottom-half work returns true without
waiting; a pass with no pending work anywhere returns false without waiting. -/
theorem c4_dispatch_step_idle_witness :
    Aio.qemu_aio_wait { aioIdleEnv with bhWork := true } aioOneSt =
      ⟨aioOneSt, true, false, []⟩ ∧
    Aio.qemu_aio_wait aioIdleEnv aioOneSt =
      ⟨{ aioOneSt with walking := false }, false, false, []⟩ :=
  ⟨(c4_dispatch_step_idle { aioIdleEnv with bhWork := true } aioOneSt).1 rfl,
   (c4_dispatch_step_idle aioIdleEnv aioOneSt).2 rfl (fun _ _ _ _ => rfl)⟩

theorem mem_markFirstLive {e : Nat} {hs : List Aio.Node} {x : Aio.Node}
    (hx : x ∈ Aio.markFirstLive e hs) :
    x ∈ hs ∨ ∃ n ∈ hs, n.deleted = false ∧ x = { n with deleted := true } := by
  induction hs with
  | nil => simp [Aio.markFirstLive] at hx
  | cons m rest ih =>
    by_cases hm : m.e = e ∧ m.deleted = false
    · rw [Aio.markFirstLive, if_pos hm] at hx
      rcases List.mem_cons.mp hx with rfl | hx
      · exact Or.inr ⟨m, List.mem_cons_self _ _, hm.2, rfl⟩
      · exact Or.inl (List.mem_cons_of_mem _ hx)
    · rw [Aio.markFirstLive, if_neg hm] at hx
      rcases List.mem_cons.mp hx with rfl | hx
      · exact Or.inl (List.mem_cons_self _ _)
      · rcases ih hx with h | ⟨n, hn, hnd, hx⟩
        · exact Or.inl (List.mem_cons_of_mem _ h)
        · exact Or.inr ⟨n, List.mem_cons_of_mem _ hn, hnd, hx⟩

theorem mem_updateFirstLive {e f : Nat} {fl : Option Nat} {hs : List Aio.Node}
    {x : Aio.Node} (hx : x ∈ Aio.updateFirstLive e f fl hs) :
    x ∈ hs ∨ ∃ n ∈ hs, n.deleted = false ∧
      x = { n with io_notify := some f, io_flush := fl } := by
  induction hs with
  | nil => simp [Aio.updateFirstLive] at hx
  | cons m rest ih =>
    by_cases hm : m.e = e ∧ m.deleted = false
    · rw [Aio.updateFirstLive, if_pos hm] at hx
      rcases List.mem_cons.mp hx with rfl | hx
      · exact Or.inr ⟨m, List.mem_cons_self _ _, hm.2, rfl⟩
      · exact Or.inl (List.mem_cons_of_mem _ hx)
    · rw [Aio.updateFirstLive, if_neg hm] at hx
      rcases List.mem_cons.mp hx with rfl | hx
      · exact Or.inl (List.mem_cons_self _ _)
      · rcases ih hx with h | ⟨n, hn, hnd, hx⟩
        · exact Or.inl (List.mem_cons_of_mem _ h)
        · exact Or.inr ⟨n, List.mem_cons_of_mem _ hn, hnd, hx⟩

theorem mem_removeFirstLive {e : Nat} {hs : List Aio.Node} {x : Aio.Node}
    (hx : x ∈ Aio.removeFirstLive e hs) : x ∈ hs := by
  induction hs with
  | nil => simp [Aio.removeFirstLive] at hx
  | cons m rest ih =>
    by_cases hm : m.e = e ∧ m.deleted = false
    · rw [Aio.removeFirstLive, if_pos hm] at hx
      exact List.mem_cons_of_mem _ hx
    · rw [Aio.removeFirstLive, if_neg hm] at hx
      rcases List.mem_cons.mp hx with rfl | hx
      · exact List.mem_cons_self _ _
      · exact List.mem_cons_of_mem _ (ih hx)

theorem map_nid_markFirstLive (e : Nat) (hs : List Aio.Node) :
    (Aio.markFirstLive e hs).map Aio.Node.nid = hs.map Aio.Node.nid := by
  induction hs with
  | nil => rfl
  | cons m rest ih =>
    by_cases hm : m.e = e ∧ m.deleted = false
    · rw [Aio.markFirstLive, if_pos hm]
      rfl
    · rw [Aio.markFirstLive, if_neg hm]
      simp [ih]

theorem map_nid_updateFirstLive (e f : Nat) (fl : Option Nat) (hs : List Aio.Node) :
    (Aio.updateFirstLive e f fl hs).map Aio.Node.nid = hs.map Aio.Node.nid := by
  induction hs with
  | nil => rfl
  | cons m rest ih =>
    by_cases hm : m.e = e ∧ m.deleted = false
    · rw [Aio.updateFirstLive, if_pos hm]
      rfl
    · rw [Aio.updateFirstLive, if_neg hm]
      simp [ih]

theorem map_nid_removeFirstLive (e : Nat) (hs : List Aio.Node) :
    ((Aio.removeFirstLive e hs).map Aio.Node.nid).Sublist (hs.map Aio.Node.nid) := by
  induction hs with
  | nil => simp [Aio.removeFirstLive]
  | cons m rest ih =>
    by_cases hm : m.e = e ∧ m.deleted = false
    · rw [Aio.removeFirstLive, if_pos hm]
      exact (List.sublist_cons_self m rest).map Aio.Node.nid
    · rw [Aio.removeFirstLive, if_neg hm]
      simpa using ih.cons₂ m.nid

theorem findLive_facts {hs : List Aio.Node} {e : Nat} {n : Aio.Node}
    (h : Aio.findLive hs e = some n) : n ∈ hs ∧ n.e = e ∧ n.deleted = false := by
  refine ⟨List.mem_of_find?_eq_some h, ?_⟩
  have := List.find?_some h
  simpa using this

theorem markFirstLive_kills {e : Nat} {hs : List Aio.Node} {n : Aio.Node}
    (hfind : Aio.findLive hs e = some n) (hnd : (hs.map Aio.Node.nid).Nodup) :
    ∀ x ∈ Aio.markFirstLive e hs, x.nid = n.nid → x.deleted = true := by
  induction hs with
  | nil => simp [Aio.findLive] at hfind
  | cons m rest ih =>
    by_cases hm : m.e = e ∧ m.deleted = false
    · have hp : (m.e == e && !m.deleted) = true := by simp [hm.1, hm.2]
      have : some m = some n := by
        rw [← hfind]
        exact (List.find?_cons_of_pos rest hp).symm
      obtain rfl : m = n := Option.some.inj this
      intro x hx hxe
      rw [Aio.markFirstLive, if_pos hm] at hx
      rcases List.mem_cons.mp hx with rfl | hx
      · rfl
      · exfalso
        have hmem : m.nid ∈ rest.map Aio.Node.nid := hxe ▸ List.mem_map_of_mem _ hx
        exact (List.nodup_cons.mp (by simpa using hnd)).1 hmem
    · have hp : ¬ (m.e == e && !m.deleted) = true := by
        simpa using hm
      have hfind' : Aio.findLive rest e = some n := by
        rw [Aio.findLive, ← List.find?_cons_of_neg rest hp]
        exact hfind
      have hn := (findLive_facts hfind').1
      intro x hx hxe
      rw [Aio.markFirstLive, if_neg hm] at hx
      rcases List.mem_cons.mp hx with rfl | hx
      · exfalso
        have hmem : x.nid ∈ rest.map Aio.Node.nid := hxe ▸ List.mem_map_of_mem _ hn
        exact (List.nodup_cons.mp (by simpa using hnd)).1 hmem
      · exact ih hfind' (List.nodup_cons.mp (by simpa using hnd)).2 x hx hxe

theorem set_event_notifier_nextId_mono (st : Aio.St) (c : Aio.RegCall) :
    st.nextId ≤ (Aio.set_event_notifier st c).nextId := by
  unfold Aio.set_event_notifier
  split
  · split
    · exact Nat.le_refl _
    · split <;> exact Nat.le_refl _
  · split
    · exact Nat.le_refl _
    · exact Nat.le_succ _

theorem set_event_notifier_wf {st : Aio.St} (c : Aio.RegCall) (h : Aio.WFIds st) :
    Aio.WFIds (Aio.set_event_notifier st c) := by
  obtain ⟨hb, hnd⟩ := h
  unfold Aio.set_event_notifier
  split
  · split
    · exact ⟨hb, hnd⟩
    · split
      · refine ⟨?_, ?_⟩
        · intro x hx
          rcases mem_markFirstLive hx with hxm | ⟨n, hn, _, rfl⟩
          · exact hb x hxm
          · exact hb n hn
        · show ((Aio.markFirstLive _ _).map Aio.Node.nid).Nodup
          rw [map_nid_markFirstLive]
          exact hnd
      · refine ⟨?_, ?_⟩
        · intro x hx
          exact hb x (mem_removeFirstLive hx)
        · exact (map_nid_removeFirstLive _ _).nodup hnd
  · split
    · refine ⟨?_, ?_⟩
      · intro x hx
        rcases mem_updateFirstLive hx with hxm | ⟨n, hn, _, rfl⟩
        · exact hb x hxm
        · exact hb n hn
      · show ((Aio.updateFirstLive _ _ _ _).map Aio.Node.nid).Nodup
        rw [map_nid_updateFirstLive]
        exact hnd
    · refine ⟨?_, ?_⟩
      · intro x hx
        rcases List.mem_cons.mp hx with rfl | hx
        · exact Nat.lt_succ_self _
        · exact Nat.lt_succ_of_lt (hb x hx)
      · simp only [List.map_cons]
        refine List.nodup_cons.mpr ⟨fun hmem => ?_, hnd⟩
        obtain ⟨y, hy, hyn⟩ := List.mem_map.mp hmem
        exact absurd (hyn ▸ hb y hy) (lt_irrefl _)

theorem set_event_notifier_dead {st : Aio.St} {i : Nat} (c : Aio.RegCall)
    (hi : i < st.nextId) (hd : Aio.DeadOrGone st i) :
    Aio.DeadOrGone (Aio.set_event_notifier st c) i := by
  unfold Aio.set_event_notifier
  split
  · split
    · exact hd
    · split
      · intro x hx hxe
        rcases mem_markFirstLive hx with hxm | ⟨n, hn, _, rfl⟩
        · exact hd x hxm hxe
        · rfl
      · intro x hx hxe
        exact hd x (mem_removeFirstLive hx) hxe
  · split
    · intro x hx hxe
      rcases mem_updateFirstLive hx with hxm | ⟨n, hn, hdel, rfl⟩
      · exact hd x hxm hxe
      · exact absurd (hd n hn hxe) (by simp [hdel])
    · intro x hx hxe
      rcases List.mem_cons.mp hx with rfl | hx
      · simp only at hxe
        omega
      · exact hd x hx hxe

theorem applyCalls_nextId_mono (cs : List Aio.RegCall) :
    ∀ st : Aio.St, st.nextId ≤ (Aio.applyCalls st cs).nextId := by
  induction cs with
  | nil => intro st; exact Nat.le_refl _
  | cons c cs ih =>
    intro st
    exact (set_event_notifier_nextId_mono st c).trans (ih (Aio.set_event_notifier st c))

theorem applyCalls_wf (cs : List Aio.RegCall) :
    ∀ st : Aio.St, Aio.WFIds st → Aio.WFIds (Aio.applyCalls st cs) := by
  induction cs with
  | nil => intro st h; exact h
  | cons c cs ih =>
    intro st h
    exact ih _ (set_event_notifier_wf c h)

theorem applyCalls_dead (cs : List Aio.RegCall) :
    ∀ (st : Aio.St) (i : Nat), i < st.nextId → Aio.DeadOrGone st i →
      Aio.DeadOrGone (Aio.applyCalls st cs) i := by
  induction cs with
  | nil => intro st i _ h; exact h
  | cons c cs ih =>
    intro st i hi h
    exact ih _ i (lt_of_lt_of_le hi (set_event_notifier_nextId_mono st c))
      (set_event_notifier_dead c hi h)

theorem removeById_subset {hs : List Aio.Node} {j : Nat} {x : Aio.Node}
    (hx : x ∈ Aio.removeById hs j) : x ∈ hs :=
  List.mem_of_mem_filter hx

theorem removeById_wf {st : Aio.St} (j : Nat) (h : Aio.WFIds st) :
    Aio.WFIds { st with handlers := Aio.removeById st.handlers j } := by
  obtain ⟨hb, hnd⟩ := h
  refine ⟨fun x hx => hb x (removeById_subset hx), ?_⟩
  exact ((List.filter_sublist _).map Aio.Node.nid).nodup hnd

theorem removeById_dead {st : Aio.St} {i : Nat} (j : Nat) (h : Aio.DeadOrGone st i) :
    Aio.DeadOrGone { st with handlers := Aio.removeById st.handlers j } i :=
  fun x hx hxe => h x (removeById_subset hx) hxe

theorem findById_facts {hs : List Aio.Node} {j : Nat} {n : Aio.Node}
    (h : Aio.findById hs j = some n) : n ∈ hs ∧ n.nid = j := by
  refine ⟨List.mem_of_find?_eq_some h, ?_⟩
  have := List.find?_some h
  simpa using this

theorem dispatchWalk_spec (env : Aio.Env) (fired : Nat) (ids : List Nat) :
    ∀ (st : Aio.St) (i : Nat), Aio.WFIds st → i < st.nextId → Aio.DeadOrGone st i →
      Aio.WFIds (Aio.dispatchWalk env fired ids st).1 ∧
      st.nextId ≤ (Aio.dispatchWalk env fired ids st).1.nextId ∧
      Aio.DeadOrGone (Aio.dispatchWalk env fired ids st).1 i ∧
      i ∉ (Aio.dispatchWalk env fired ids st).2 := by
  induction ids with
  | nil =>
    intro st i hwf hi hd
    simp only [Aio.dispatchWalk]
    exact ⟨hwf, Nat.le_refl _, hd, List.not_mem_nil i⟩
  | cons j rest ih =>
    intro st i hwf hi hd
    simp only [Aio.dispatchWalk]
    cases hfind : Aio.findById st.handlers j with
    | none =>
      simp only [hfind]
      exact ih st i hwf hi hd
    | some n =>
      simp only [hfind]
      by_cases hc : n.deleted = false ∧ n.e = fired ∧ n.io_notify.isSome
      · rw [if_pos hc]
        have hwf1 := applyCalls_wf (env.acts (n.io_notify.getD 0)) st hwf
        have hmono1 := applyCalls_nextId_mono (env.acts (n.io_notify.getD 0)) st
        have hi1 : i < (Aio.applyCalls st (env.acts (n.io_notify.getD 0))).nextId :=
          lt_of_lt_of_le hi hmono1
        have hd1 := applyCalls_dead (env.acts (n.io_notify.getD 0)) st i hi hd
        have hij : j ≠ i := by
          intro hji
          obtain ⟨hn, hnid⟩ := findById_facts hfind
          have : n.deleted = true := hd n hn (hji ▸ hnid)
          rw [hc.1] at this
          exact Bool.false_ne_true this
        cases hfind2 : Aio.findById
            (Aio.applyCalls st (env.acts (n.io_notify.getD 0))).handlers j with
        | none =>
          simp only [hfind2]
          have h3 := ih _ i hwf1 hi1 hd1
          refine ⟨h3.1, le_trans hmono1 h3.2.1, h3.2.2.1, ?_⟩
          intro hmem
          rcases List.mem_cons.mp hmem with rfl | hmem
          · exact hij rfl
          · exact h3.2.2.2 hmem
        | some n1 =>
          simp only [hfind2]
          by_cases hdel : n1.deleted
          · rw [if_pos hdel]
            have h3 := ih _ i (removeById_wf j hwf1) hi1 (removeById_dead j hd1)
            refine ⟨h3.1, le_trans hmono1 h3.2.1, h3.2.2.1, ?_⟩
            intro hmem
            rcases List.mem_cons.mp hmem with rfl | hmem
            · exact hij rfl
            · exact h3.2.2.2 hmem
          · rw [if_neg hdel]
            have h3 := ih _ i hwf1 hi1 hd1
            refine ⟨h3.1, le_trans hmono1 h3.2.1, h3.2.2.1, ?_⟩
            intro hmem
            rcases List.mem_cons.mp hmem with rfl | hmem
            · exact hij rfl
            · exact h3.2.2.2 hmem
      · rw [if_neg hc]
        by_cases hdel : n.deleted
        · rw [if_pos hdel]
          exact ih _ i (removeById_wf j hwf) hi (removeById_dead j hd)
        · rw [if_neg hdel]
          exact ih st i hwf hi hd

theorem waitRounds_spec (env : Aio.Env) (events : List Nat) (rs : List Nat) :
    ∀ (st : Aio.St) (i : Nat), Aio.WFIds st → i < st.nextId → Aio.DeadOrGone st i →
      Aio.WFIds (Aio.waitRounds env events rs st).1 ∧
      st.nextId ≤ (Aio.waitRounds env events rs st).1.nextId ∧
      Aio.DeadOrGone (Aio.waitRounds env events rs st).1 i ∧
      i ∉ (Aio.waitRounds env events rs st).2 := by
  induction rs with
  | nil =>
    intro st i hwf hi hd
    simp only [Aio.waitRounds]
    exact ⟨hwf, Nat.le_refl _, hd, List.not_mem_nil i⟩
  | cons r rs ih =>
    intro st i hwf hi hd
    simp only [Aio.waitRounds]
    by_cases hr : r < events.length
    · rw [dif_pos hr]
      have h1 := dispatchWalk_spec env (events.get ⟨r, hr⟩)
        (List.map Aio.Node.nid st.handlers) { st with walking := true } i hwf hi hd
      have h2 := ih { (Aio.dispatchWalk env (events.get ⟨r, hr⟩)
          (List.map Aio.Node.nid st.handlers) { st with walking := true }).1 with
            walking := false } i h1.1 (lt_of_lt_of_le hi h1.2.1) h1.2.2.1
      refine ⟨h2.1, le_trans h1.2.1 h2.2.1, h2.2.2.1, ?_⟩
      intro hmem
      rcases List.mem_append.mp hmem with hmem | hmem
      · exact h1.2.2.2 hmem
      · exact h2.2.2.2 hmem
    · rw [dif_neg hr]
      exact ⟨hwf, Nat.le_refl _, hd, List.not_mem_nil i⟩

theorem qemu_aio_wait_spec (env : Aio.Env) (st : Aio.St) (i : Nat)
    (hwf : Aio.WFIds st) (hi : i < st.nextId) (hd : Aio.DeadOrGone st i) :
    Aio.WFIds (Aio.qemu_aio_wait env st).st ∧
    st.nextId ≤ (Aio.qemu_aio_wait env st).st.nextId ∧
    Aio.DeadOrGone (Aio.qemu_aio_wait env st).st i ∧
    i ∉ (Aio.qemu_aio_wait env st).invoked := by
  unfold Aio.qemu_aio_wait
  by_cases hbh : env.bhWork
  · rw [if_pos hbh]
    exact ⟨hwf, Nat.le_refl _, hd, List.not_mem_nil i⟩
  · rw [if_neg hbh]
    by_cases hfb : (Aio.fill env ({ st with walking := true }).handlers).1 = false
    · rw [if_pos hfb]
      exact ⟨hwf, Nat.le_refl _, hd, List.not_mem_nil i⟩
    · rw [if_neg hfb]
      exact waitRounds_spec env _ env.fired { st with walking := false } i hwf hi hd

theorem runPasses_spec (envs : List Aio.Env) :
    ∀ (st : Aio.St) (i : Nat), Aio.WFIds st → i < st.nextId → Aio.DeadOrGone st i →
      i ∉ (Aio.runPasses envs st).2 := by
  induction envs with
  | nil =>
    intro st i _ _ _
    simp only [Aio.runPasses]
    exact List.not_mem_nil i
  | cons env envs ih =>
    intro st i hwf hi hd
    simp only [Aio.runPasses]
    have h1 := qemu_aio_wait_spec env st i hwf hi hd
    have h2 := ih _ i h1.1 (lt_of_lt_of_le hi h1.2.1) h1.2.2.1
    intro hmem
    rcases List.mem_append.mp hmem with hmem | hmem
    · exact h1.2.2.2 hmem
    · exact h2 hmem

/-- C3 (amended): unregistering a source (registering a null handler) while
the walking guard is held only marks its registry entry as deleted: no entry
is physically added or removed by the register path (the id sequence of the
registry is unchanged), and the tombstoned entry's readiness callback is
never invoked — neither by the remainder of the dispatch walk in progress
nor by any later dispatch pass.  (Physical removal of the tombstoned entry
happens in a dispatch walk's sweep, possibly in the very same pass, with the
guard still held; see the counterexample.) -/
theorem c3_unregister_tombstones (st : Aio.St) (e : Nat) (n : Aio.Node)
    (hwf : Aio.WFIds st) (hwalk : st.walking = true)
    (hfind : Aio.findLive st.handlers e = some n) :
    (Aio.set_event_notifier st ⟨e, none, none⟩).handlers.map Aio.Node.nid =
        st.handlers.map Aio.Node.nid ∧
    (Aio.set_event_notifier st ⟨e, none, none⟩).nextId = st.nextId ∧
    Aio.DeadOrGone (Aio.set_event_notifier st ⟨e, none, none⟩) n.nid ∧
    (∀ (env2 : Aio.Env) (fired : Nat) (ids : List Nat),
      n.nid ∉ (Aio.dispatchWalk env2 fired ids
        (Aio.set_event_notifier st ⟨e, none, none⟩)).2) ∧
    (∀ envs : List Aio.Env,
      n.nid ∉ (Aio.runPasses envs (Aio.set_event_notifier st ⟨e, none, none⟩)).2) := by
  have hsen : Aio.set_event_notifier st ⟨e, none, none⟩ =
      { st with handlers := Aio.markFirstLive e st.handlers } := by
    unfold Aio.set_event_notifier
    simp only [hfind]
    rw [if_pos hwalk]
  have hdg : Aio.DeadOrGone (Aio.set_event_notifier st ⟨e, none, none⟩) n.nid := by
    rw [hsen]
    intro x hx hxe
    exact markFirstLive_kills hfind hwf.2 x hx hxe
  have hwf' : Aio.WFIds (Aio.set_event_notifier st ⟨e, none, none⟩) :=
    set_event_notifier_wf _ hwf
  have hlt : n.nid < (Aio.set_event_notifier st ⟨e, none, none⟩).nextId := by
    rw [hsen]
    exact hwf.1 n (findLive_facts hfind).1
  refine ⟨?_, ?_, hdg, ?_, ?_⟩
  · rw [hsen]
    exact map_nid_markFirstLive e st.handlers
  · rw [hsen]
  · intro env2 fired ids
    exact (dispatchWalk_spec env2 fired ids _ n.nid hwf' hlt hdg).2.2.2
  · intro envs
    exact runPasses_spec envs _ n.nid hwf' hlt hdg

/-- Witness for C3's amended statement: one live source (notifier 5, node id
0) tombstoned while the guard is held. -/
theorem c3_unregister_tombstones_witness :
    (Aio.set_event_notifier { aioOneSt with walking := true }
        ⟨5, none, none⟩).handlers.map Aio.Node.nid =
      ({ aioOneSt with walking := true } : Aio.St).handlers.map Aio.Node.nid ∧
    (Aio.set_event_notifier { aioOneSt with walking := true } ⟨5, none, none⟩).nextId =
      ({ aioOneSt with walking := true } : Aio.St).nextId ∧
    Aio.DeadOrGone
      (Aio.set_event_notifier { aioOneSt with walking := true } ⟨5, none, none⟩) 0 ∧
    (∀ (env2 : Aio.Env) (fired : Nat) (ids : List Nat),
      0 ∉ (Aio.dispatchWalk env2 fired ids
        (Aio.set_event_notifier { aioOneSt with walking := true } ⟨5, none, none⟩)).2) ∧
    (∀ envs : List Aio.Env,
      0 ∉ (Aio.runPasses envs
        (Aio.set_event_notifier { aioOneSt with walking := true } ⟨5, none, none⟩)).2) :=
  c3_unregister_tombstones { aioOneSt with walking := true } 5
    ⟨0, 5, some 7, some 9, false⟩ (by decide) rfl (by decide)

/-- C3 fails as stated on physical removal: when callback 7 unregisters its
own source during the dispatch walk, the entry is tombstoned and then
physically removed by the sweep of the SAME pass, with the walking guard
still held — not "only when a later walk runs outside the guard" as the
claim says.  After the single pass the registry is empty. -/
theorem c3_same_pass_physical_removal :
    aioOneSt.handlers.length = 1 ∧
    (Aio.qemu_aio_wait aioSelfDeleteEnv aioOneSt).st.handlers = [] ∧
    (Aio.qemu_aio_wait aioSelfDeleteEnv aioOneSt).invoked = [0] ∧
    (Aio.qemu_aio_wait aioSelfDeleteEnv aioOneSt).ret = true := by
  decide

theorem lt_nextChunkBoundary (s : Nat) : s < Mirror.nextChunkBoundary s := by
  unfold Mirror.nextChunkBoundary Mirror.SECTORS_PER_CHUNK
  omega

theorem nextChunkBoundary_le_of_lt {s x : Nat} (h : s < Mirror.nextChunkBoundary x)
    (hge : x ≤ s) : Mirror.nextChunkBoundary s = Mirror.nextChunkBoundary x := by
  unfold Mirror.nextChunkBoundary Mirror.SECTORS_PER_CHUNK at *
  omega

theorem chunkOf_eq_of_lt_boundary {s x : Nat} (h1 : s ≤ x)
    (h2 : x < Mirror.nextChunkBoundary s) : Mirror.chunkOf x = Mirror.chunkOf s := by
  unfold Mirror.chunkOf
  unfold Mirror.nextChunkBoundary Mirror.SECTORS_PER_CHUNK at *
  omega

theorem mem_insertChunk {d : List Nat} {k j : Nat} :
    j ∈ Mirror.insertChunk d k ↔ j = k ∨ j ∈ d := by
  unfold Mirror.insertChunk
  by_cases hk : k ∈ d
  · rw [if_pos hk]
    constructor
    · exact Or.inr
    · rintro (rfl | h)
      · exact hk
      · exact h
  · rw [if_neg hk]
    simp [List.mem_append, or_comm]

theorem set_dirty_single {d : List Nat} {sector n : Nat} (hn : 0 < n)
    (hb : sector + n ≤ Mirror.nextChunkBoundary sector) :
    Mirror.bdrv_set_dirty d sector n = Mirror.insertChunk d (Mirror.chunkOf sector) := by
  unfold Mirror.bdrv_set_dirty
  have h1 : Mirror.chunkOf (sector + n - 1) = Mirror.chunkOf sector :=
    chunkOf_eq_of_lt_boundary (by omega) (by omega)
  rw [h1]
  have h2 : Mirror.chunkOf sector + 1 - Mirror.chunkOf sector = 1 := by omega
  rw [h2]
  rfl

theorem scanLoop_append (env : Mirror.Env) (endS : Nat) :
    ∀ (fuel sector : Nat) (ret : Int) (d : List Nat) (qs : List (Nat × Nat)),
      Mirror.scanLoop env endS fuel sector ret d qs =
        (Mirror.scanLoop env endS fuel sector ret d []).map
          (fun r => ⟨r.ret, r.dirty, qs ++ r.queries⟩) := by
  intro fuel
  induction fuel with
  | zero =>
    intro sector ret d qs
    simp only [Mirror.scanLoop]
    split <;> simp
  | succ fuel ih =>
    intro sector ret d qs
    simp only [Mirror.scanLoop]
    split
    · split
      · simp
      · split
        · rw [ih _ _ _ ([] ++ [(sector, Mirror.nextChunkBoundary sector - sector)]),
            ih _ _ _ (qs ++ [(sector, Mirror.nextChunkBoundary sector - sector)])]
          simp [Option.map_map, Function.comp_def]
        · rw [ih _ _ _ ([] ++ [(sector, Mirror.nextChunkBoundary sector - sector)]),
            ih _ _ _ (qs ++ [(sector, Mirror.nextChunkBoundary sector - sector)])]
          simp [Option.map_map, Function.comp_def]
    · simp

theorem scanLoop_run_spec (env : Mirror.Env) (endS : Nat) (hwf : Mirror.ScanWF env) :
    ∀ (fuel sector : Nat) (ret : Int) (d : List Nat),
      endS ≤ sector + fuel → 0 ≤ ret →
      ∃ res : Mirror.ScanRes,
        Mirror.scanLoop env endS fuel sector ret d [] = some res ∧
        0 ≤ res.ret ∧
        (∀ k, k ∈ res.dirty ↔ k ∈ d ∨
          ∃ q ∈ res.queries, (env.scan q.1 q.2).1 = 1 ∧ Mirror.chunkOf q.1 = k) ∧
        (∀ q ∈ res.queries,
          q.2 = Mirror.nextChunkBoundary q.1 - q.1 ∧ sector ≤ q.1 ∧ q.1 < endS) ∧
        List.Chain' (Mirror.scanAdvance env) res.queries ∧
        res.queries.head? =
          (if sector < endS then some (sector, Mirror.nextChunkBoundary sector - sector)
           else none) ∧
        (∀ k, sector ≤ k * Mirror.SECTORS_PER_CHUNK →
          k * Mirror.SECTORS_PER_CHUNK < endS →
          ∃ q ∈ res.queries, Mirror.chunkOf q.1 = k) ∧
        List.Pairwise (fun a b : Nat × Nat => a.1 < b.1) res.queries := by
  intro fuel
  induction fuel with
  | zero =>
    intro sector ret d hfuel hret
    have hge : ¬ sector < endS := by omega
    refine ⟨⟨ret, d, []⟩, ?_, hret, ?_, ?_, ?_, ?_, ?_, ?_⟩
    · simp only [Mirror.scanLoop]
      rw [if_neg hge]
    · intro k
      simp
    · intro q hq
      simp at hq
    · exact List.chain'_nil
    · simp [hge]
    · intro k h1 h2
      omega
    · exact List.Pairwise.nil
  | succ fuel ih =>
    intro sector ret d hfuel hret
    by_cases hlt : sector < endS
    · have hsb : sector < Mirror.nextChunkBoundary sector := lt_nextChunkBoundary sector
      have hsp : 0 < Mirror.nextChunkBoundary sector - sector := by omega
      obtain ⟨hn, hns, hr01⟩ :=
        hwf sector (Mirror.nextChunkBoundary sector - sector) hsp
      have hnneg : ¬ (env.scan sector (Mirror.nextChunkBoundary sector - sector)).1 < 0 := by
        rcases hr01 with h | h <;> omega
      rcases hr01 with ha0 | ha1
      · -- not allocated: skip by the returned span
        obtain ⟨res', heq', hret', hA, hB, hC, hD, hE, hF⟩ :=
          ih (sector + (env.scan sector (Mirror.nextChunkBoundary sector - sector)).2)
            (env.scan sector (Mirror.nextChunkBoundary sector - sector)).1 d
            (by omega) (by omega)
        have hna : ¬ (env.scan sector (Mirror.nextChunkBoundary sector - sector)).1 = 1 := by
          rw [ha0]
          decide
        refine ⟨⟨res'.ret, res'.dirty,
          (sector, Mirror.nextChunkBoundary sector - sector) :: res'.queries⟩,
          ?_, hret', ?_, ?_, ?_, ?_, ?_, ?_⟩
        · simp only [Mirror.scanLoop]
          rw [if_pos hlt, if_neg hnneg, if_neg hna, scanLoop_append, heq']
          simp
        · intro k
          rw [List.exists_mem_cons_iff]
          have hA' := hA k
          constructor
          · intro hk
            rcases (hA'.mp hk) with hkd | hEx
            · exact Or.inl hkd
            · exact Or.inr (Or.inr hEx)
          · rintro (hkd | ⟨hq1, _⟩ | hEx)
            · exact hA'.mpr (Or.inl hkd)
            · exact absurd hq1 hna
            · exact hA'.mpr (Or.inr hEx)
        · intro q hq
          rcases List.mem_cons.mp hq with rfl | hq
          · exact ⟨rfl, Nat.le_refl _, hlt⟩
          · obtain ⟨hq2, hq3, hq4⟩ := hB q hq
            exact ⟨hq2, by omega, hq4⟩
        · refine List.chain'_cons'.mpr ⟨?_, hC⟩
          intro b hb
          rw [hD] at hb
          by_cases hlt2 :
              sector + (env.scan sector (Mirror.nextChunkBoundary sector - sector)).2 < endS
          · rw [if_pos hlt2] at hb
            have hb' : b = (sector +
                (env.scan sector (Mirror.nextChunkBoundary sector - sector)).2,
                Mirror.nextChunkBoundary (sector +
                  (env.scan sector (Mirror.nextChunkBoundary sector - sector)).2) -
                  (sector +
                    (env.scan sector (Mirror.nextChunkBoundary sector - sector)).2)) := by
              simpa using hb.symm
            rw [hb']
            show _ = if (env.scan sector (Mirror.nextChunkBoundary sector - sector)).1 = 1
              then _ else _
            rw [if_neg hna]
          · rw [if_neg hlt2] at hb
            simp at hb
        · simp [hlt]
        · intro k hk1 hk2
          by_cases hkb : k * Mirror.SECTORS_PER_CHUNK < Mirror.nextChunkBoundary sector
          · refine ⟨(sector, Mirror.nextChunkBoundary sector - sector),
              List.mem_cons_self _ _, ?_⟩
            have h1 : Mirror.chunkOf (k * Mirror.SECTORS_PER_CHUNK) = k := by
              unfold Mirror.chunkOf Mirror.SECTORS_PER_CHUNK
              omega
            have h2 : Mirror.chunkOf (k * Mirror.SECTORS_PER_CHUNK) =
                Mirror.chunkOf sector := chunkOf_eq_of_lt_boundary hk1 hkb
            show Mirror.chunkOf sector = k
            rw [← h2, h1]
          · obtain ⟨q, hq, hqc⟩ := hE k (by omega) hk2
            exact ⟨q, List.mem_cons_of_mem _ hq, hqc⟩
        · refine List.pairwise_cons.mpr ⟨?_, hF⟩
          intro b hb
          have := (hB b hb).2.1
          show sector < b.1
          omega
      · -- allocated: mark the chunk, jump to the next boundary
        have hble : sector + (env.scan sector
            (Mirror.nextChunkBoundary sector - sector)).2 ≤
            Mirror.nextChunkBoundary sector := by omega
        obtain ⟨res', heq', hret', hA, hB, hC, hD, hE, hF⟩ :=
          ih (Mirror.nextChunkBoundary sector)
            (env.scan sector (Mirror.nextChunkBoundary sector - sector)).1
            (Mirror.bdrv_set_dirty d sector
              (env.scan sector (Mirror.nextChunkBoundary sector - sector)).2)
            (by omega) (by omega)
        refine ⟨⟨res'.ret, res'.dirty,
          (sector, Mirror.nextChunkBoundary sector - sector) :: res'.queries⟩,
          ?_, hret', ?_, ?_, ?_, ?_, ?_, ?_⟩
        · simp only [Mirror.scanLoop]
          rw [if_pos hlt, if_neg hnneg, if_pos ha1, scanLoop_append, heq']
          simp
        · intro k
          rw [List.exists_mem_cons_iff]
          have hA' := hA k
          rw [set_dirty_single hn hble, mem_insertChunk] at hA'
          constructor
          · intro hk
            rcases (hA'.mp hk) with (rfl | hkd) | hEx
            · exact Or.inr (Or.inl ⟨ha1, rfl⟩)
            · exact Or.inl hkd
            · exact Or.inr (Or.inr hEx)
          · rintro (hkd | ⟨_, hq2⟩ | hEx)
            · exact hA'.mpr (Or.inl (Or.inr hkd))
            · exact hA'.mpr (Or.inl (Or.inl hq2.symm))
            · exact hA'.mpr (Or.inr hEx)
        · intro q hq
          rcases List.mem_cons.mp hq with rfl | hq
          · exact ⟨rfl, Nat.le_refl _, hlt⟩
          · obtain ⟨hq2, hq3, hq4⟩ := hB q hq
            exact ⟨hq2, by omega, hq4⟩
        · refine List.chain'_cons'.mpr ⟨?_, hC⟩
          intro b hb
          rw [hD] at hb
          by_cases hlt2 : Mirror.nextChunkBoundary sector < endS
          · rw [if_pos hlt2] at hb
            have hb' : b = (Mirror.nextChunkBoundary sector,
                Mirror.nextChunkBoundary (Mirror.nextChunkBoundary sector) -
                  Mirror.nextChunkBoundary sector) := by
              simpa using hb.symm
            rw [hb']
            show _ = if (env.scan sector (Mirror.nextChunkBoundary sector - sector)).1 = 1
              then _ else _
            rw [if_pos ha1]
          · rw [if_neg hlt2] at hb
            simp at hb
        · simp [hlt]
        · intro k hk1 hk2
          by_cases hkb : k * Mirror.SECTORS_PER_CHUNK < Mirror.nextChunkBoundary sector
          · refine ⟨(sector, Mirror.nextChunkBoundary sector - sector),
              List.mem_cons_self _ _, ?_⟩
            have h1 : Mirror.chunkOf (k * Mirror.SECTORS_PER_CHUNK) = k := by
              unfold Mirror.chunkOf Mirror.SECTORS_PER_CHUNK
              omega
            have h2 : Mirror.chunkOf (k * Mirror.SECTORS_PER_CHUNK) =
                Mirror.chunkOf sector := chunkOf_eq_of_lt_boundary hk1 hkb
            show Mirror.chunkOf sector = k
            rw [← h2, h1]
          · obtain ⟨q, hq, hqc⟩ := hE k (by omega) hk2
            exact ⟨q, List.mem_cons_of_mem _ hq, hqc⟩
        · refine List.pairwise_cons.mpr ⟨?_, hF⟩
          intro b hb
          have := (hB b hb).2.1
          show sector < b.1
          omega
    · have hge := hlt
      refine ⟨⟨ret, d, []⟩, ?_, hret, ?_, ?_, ?_, ?_, ?_, ?_⟩
      · simp only [Mirror.scanLoop]
        rw [if_neg hge]
      · intro k
        simp
      · intro q hq
        simp at hq
      · exact List.chain'_nil
      · simp [hge]
      · intro k h1 h2
        omega
      · exact List.Pairwise.nil

/-- C5 (amended): for every source extent and every behaviour of the
allocated-above-base collaborator that answers each query with a positive
span no larger than the requested one, the full-scan phase terminates with
the set of dirty chunks equal to exactly the chunks in which some query was
answered "allocated"; every query spans exactly up to the next chunk
boundary; the cursor advances to the next chunk boundary on an allocated
answer and by the returned skip span on a not-allocated answer; every
chunk-aligned window receives at least one query and the queried offsets
strictly increase — so each window is queried exactly once precisely when
every answer covers the full requested span, and is re-queried from the skip
point when a not-allocated answer returns a shorter span (see the
counterexample). -/
theorem c5_full_scan (env : Mirror.Env) (endS fuel : Nat)
    (hwf : Mirror.ScanWF env) (hfuel : endS ≤ fuel) :
    ∃ res : Mirror.ScanRes,
      Mirror.scanLoop env endS fuel 0 0 [] [] = some res ∧
      (∀ k, k ∈ res.dirty ↔
        ∃ q ∈ res.queries, (env.scan q.1 q.2).1 = 1 ∧ Mirror.chunkOf q.1 = k) ∧
      (∀ q ∈ res.queries, q.2 = Mirror.nextChunkBoundary q.1 - q.1 ∧ q.1 < endS) ∧
      List.Chain' (Mirror.scanAdvance env) res.queries ∧
      (∀ k, k * Mirror.SECTORS_PER_CHUNK < endS →
        ∃ q ∈ res.queries, Mirror.chunkOf q.1 = k) ∧
      List.Pairwise (fun a b : Nat × Nat => a.1 < b.1) res.queries := by
  obtain ⟨res, heq, _, hA, hB, hC, _, hE, hF⟩ :=
    scanLoop_run_spec env endS hwf fuel 0 0 [] (by omega) (Int.le_refl 0)
  refine ⟨res, heq, ?_, ?_, hC, ?_, hF⟩
  · intro k
    rw [hA k]
    simp
  · intro q hq
    exact ⟨(hB q hq).1, (hB q hq).2.2⟩
  · intro k hk
    exact hE k (Nat.zero_le _) hk

/-- Witness for C5's amended statement: a 2-chunk extent whose first chunk is
allocated and second is not, every answer covering the full span. -/
theorem c5_full_scan_witness :
    ∃ res : Mirror.ScanRes,
      Mirror.scanLoop mirrorScanWitnessEnv 4096 4096 0 0 [] [] = some res ∧
      (∀ k, k ∈ res.dirty ↔
        ∃ q ∈ res.queries,
          (mirrorScanWitnessEnv.scan q.1 q.2).1 = 1 ∧ Mirror.chunkOf q.1 = k) ∧
      (∀ q ∈ res.queries, q.2 = Mirror.nextChunkBoundary q.1 - q.1 ∧ q.1 < 4096) ∧
      List.Chain' (Mirror.scanAdvance mirrorScanWitnessEnv) res.queries ∧
      (∀ k, k * Mirror.SECTORS_PER_CHUNK < 4096 →
        ∃ q ∈ res.queries, Mirror.chunkOf q.1 = k) ∧
      List.Pairwise (fun a b : Nat × Nat => a.1 < b.1) res.queries :=
  c5_full_scan mirrorScanWitnessEnv 4096 4096
    (by
      intro s sp h
      by_cases hs : s < 2048 <;> simp [mirrorScanWitnessEnv, hs] <;> omega)
    (by decide)

/-- C5 fails as stated: a collaborator that always returns a positive span
(never exceeding the requested one) but answers the query at offset 0 with
"not allocated, skip only 4 sectors" makes the scan query the first
chunk-aligned window twice — at offsets 0 and 4 — before marking it dirty,
so "each window is queried once" does not hold. -/
theorem c5_window_queried_twice :
    Mirror.ScanWF mirrorPartialSkipEnv ∧
    Mirror.scanLoop mirrorPartialSkipEnv 2048 3 0 0 [] [] =
      some ⟨1, [0], [(0, 2048), (4, 2044)]⟩ ∧
    queriesInChunk [(0, 2048), (4, 2044)] 0 = 2 := by
  refine ⟨?_, by decide, by decide⟩
  intro s sp h
  by_cases hs : s = 0 <;> simp [mirrorPartialSkipEnv, hs] <;> omega
